import Mathlib

/-!
Verification of the async-data core (src/async-data.ts).

This file gives a shallow embedding of the runtime semantics of the
AsyncData namespace: the constructors `create`, `resolve`, `reject`, the
predicates `isPending`, `isFulfilled`, `isFulfilledAndDefined`,
`isRejected`, the structural recognizer `is`, and the transform `fork`.

JavaScript values are modelled by `JSValue`; plain objects are association
lists of string keys to values (a real JavaScript object never holds a
duplicate key, and all objects built here are duplicate-free).  Property
access on undefined or null throws a TypeError; this is modelled by
`Option` (`none` means the access throws).  `fork` can also throw its own
Error, so it returns `Except String JSValue` where an `error` result means
a raised exception and an `ok` result a returned value.  An omitted
optional argument in JavaScript is the value undefined, modelled by
passing `JSValue.undef`.  Reference identity of JavaScript values is
represented by equality of the embedded values: the embedding copies
values exactly where the code copies references.
-/

/-- A JavaScript runtime value: undefined, null, booleans, numbers
(integers suffice for the data handled here), strings, and plain objects
as ordered key-value lists. -/
inductive JSValue where
  | undef : JSValue
  | null : JSValue
  | bool : Bool → JSValue
  | num : Int → JSValue
  | str : String → JSValue
  | obj : List (String × JSValue) → JSValue

/-- The fields of a plain JavaScript object, in enumeration order. -/
abbrev JSObject := List (String × JSValue)

/-- Value of an own property of an object: the first binding of the key,
or undefined when the key is absent (objects built by this library are
duplicate-free, so first = only). -/
def getField (fields : JSObject) (k : String) : JSValue :=
  match fields.find? (fun p => p.1 == k) with
  | some p => p.2
  | none => JSValue.undef

/-- Whether an object has an own property named `k` (the semantics of
Reflect.has on a plain object with no prototype chain). -/
def hasKey (fields : JSObject) (k : String) : Bool :=
  fields.any (fun p => p.1 == k)

/-- Semantics of the object literal that spreads `fields` and then writes
key `k` to value `v`: if `k` is already present its value is overwritten
in place, otherwise `k` is appended as the last key. -/
def setField (fields : JSObject) (k : String) (v : JSValue) : JSObject :=
  if hasKey fields k then
    fields.map (fun p => if p.1 == k then (k, v) else p)
  else
    fields ++ [(k, v)]

/-- JavaScript truthiness: the Boolean conversion used by the `&&` guard. -/
def truthy : JSValue → Bool
  | JSValue.undef => false
  | JSValue.null => false
  | JSValue.bool b => b
  | JSValue.num n => n != 0
  | JSValue.str s => s != ""
  | JSValue.obj _ => true

/-- The typeof operator (typeof null is "object" in JavaScript). -/
def jsTypeof : JSValue → String
  | JSValue.undef => "undefined"
  | JSValue.null => "object"
  | JSValue.bool _ => "boolean"
  | JSValue.num _ => "number"
  | JSValue.str _ => "string"
  | JSValue.obj _ => "object"

/-- Strict equality of a value against a string literal: true exactly when
the value is that string.  A string never compares equal, under the
JavaScript strict-equality operator, to a value of another type. -/
def strictEqStr (v : JSValue) (s : String) : Bool :=
  match v with
  | JSValue.str t => t == s
  | _ => false

/-- The nullish-coalescing operator: the left operand unless it is
undefined or null, in which case the right operand. -/
def nullishCoalesce (a b : JSValue) : JSValue :=
  match a with
  | JSValue.undef => b
  | JSValue.null => b
  | v => v

/-- Plain property access: throws (`none`) on undefined or null, looks up
own properties of objects, and yields undefined on other primitives (none
of which has an own property used by this library). -/
def jsGetProp (v : JSValue) (k : String) : Option JSValue :=
  match v with
  | JSValue.undef => none
  | JSValue.null => none
  | JSValue.obj fields => some (getField fields k)
  | _ => some JSValue.undef

/-- Optional-chaining property access: undefined on a nullish receiver,
ordinary access otherwise (total, never throws). -/
def jsOptProp (v : JSValue) (k : String) : JSValue :=
  match v with
  | JSValue.undef => JSValue.undef
  | JSValue.null => JSValue.undef
  | JSValue.obj fields => getField fields k
  | _ => JSValue.undef

/-- The own enumerable properties contributed by spreading a value into an
object literal: the fields of an object, nothing for a primitive or a
nullish spread target. -/
def spreadFields : JSValue → JSObject
  | JSValue.obj fields => fields
  | _ => []

namespace AsyncData

/-- Embedding of AsyncData.create, whose body returns the object literal
with fields data = `data`, state = "pending", and isLoading equal to
`isLoading` nullish-coalesced with false.  Both arguments are optional in
the source, so an omitted argument is `JSValue.undef`. -/
def create (data isLoading : JSValue) : JSValue :=
  JSValue.obj
    [("data", data), ("state", JSValue.str "pending"),
     ("isLoading", nullishCoalesce isLoading (JSValue.bool false))]

/-- Embedding of AsyncData.resolve, whose body returns the object literal
with fields data = `data`, state = "fulfilled", isLoading = false. -/
def resolve (data : JSValue) : JSValue :=
  JSValue.obj
    [("data", data), ("state", JSValue.str "fulfilled"),
     ("isLoading", JSValue.bool false)]

/-- Embedding of AsyncData.reject, whose body returns the object literal
with fields data = `data`, state = "rejected", error = `error`,
isLoading = false. -/
def reject (data error : JSValue) : JSValue :=
  JSValue.obj
    [("data", data), ("state", JSValue.str "rejected"),
     ("error", error), ("isLoading", JSValue.bool false)]

/-- Embedding of AsyncData.isPending, whose body compares the state
property of its argument with the string "pending" under strict equality.
The property access throws a TypeError on a nullish argument, hence the
`Option` result (`none` means thrown). -/
def isPending (data : JSValue) : Option Bool :=
  (jsGetProp data "state").map (fun st => strictEqStr st "pending")

/-- Embedding of AsyncData.isFulfilled, whose body compares the state
property of its argument, read through optional chaining, with the string
"fulfilled".  Optional chaining makes this total: a nullish argument
yields false rather than throwing. -/
def isFulfilled (data : JSValue) : Bool :=
  strictEqStr (jsOptProp data "state") "fulfilled"

/-- Embedding of AsyncData.isFulfilledAndDefined, whose body is the
Boolean conversion of: `data` truthy, and the state property equal to
"fulfilled", and the typeof of the data property distinct from
"undefined".  When `data` is falsy the chain short-circuits to the falsy
value and the Boolean conversion gives false; a truthy value is never
nullish, so the property accesses cannot throw and coincide with
optional-chaining access. -/
def isFulfilledAndDefined (data : JSValue) : Bool :=
  truthy data &&
    (strictEqStr (jsOptProp data "state") "fulfilled" &&
      !(jsTypeof (jsOptProp data "data") == "undefined"))

/-- Embedding of AsyncData.isRejected, whose body compares the state
property of its argument with the string "rejected".  Like `isPending`,
it throws on a nullish argument. -/
def isRejected (data : JSValue) : Option Bool :=
  (jsGetProp data "state").map (fun st => strictEqStr st "rejected")

/-- Embedding of AsyncData.is, whose body checks Reflect.has for the keys
state and isLoading.  The TypeScript signature requires an object
argument, so the embedding takes the field list of an object. -/
def is (object : JSObject) : Bool :=
  hasKey object "state" && hasKey object "isLoading"

/-- The message of the Error thrown by fork on an unsupported state. -/
def forkErrorMessage : String :=
  "Cannot fork the provided AsyncData Object. Unsupported state."

/-- The guard of fork: whether the state property of the source belongs to
the array of the three literals "pending", "rejected", "fulfilled", under
the SameValueZero comparison of Array.prototype.includes (which on string
literals coincides with `strictEqStr`). -/
def recognizedTag (st : JSValue) : Bool :=
  ["pending", "rejected", "fulfilled"].any (fun t => strictEqStr st t)

/-- Embedding of AsyncData.fork: it first reads the state property of the
source (a TypeError on a nullish source), throws the unsupported-state
Error when that state is not in the array of the three recognized tags,
and otherwise returns the object literal spreading the source and then
writing the data key. -/
def fork (source data : JSValue) : Except String JSValue :=
  match jsGetProp source "state" with
  | none => Except.error "TypeError: Cannot read properties of null or undefined"
  | some st =>
    if recognizedTag st then
      Except.ok (JSValue.obj (setField (spreadFields source) "data" data))
    else
      Except.error forkErrorMessage

end AsyncData

open AsyncData

/-- Whether an embedded predicate call returned true: the call did not
throw, and its value is true. -/
def returnedTrue (r : Option Bool) : Bool :=
  match r with
  | some true => true
  | _ => false

/-- Number of the three state predicates that return true on a value
(`isPending`, `isFulfilled`, `isRejected`). -/
def stateTrueCount (v : JSValue) : Nat :=
  (returnedTrue (isPending v)).toNat + (isFulfilled v).toNat
    + (returnedTrue (isRejected v)).toNat

/-- Whether a fork call returns normally rather than raising. -/
def forkSucceeds (source data : JSValue) : Bool :=
  match fork source data with
  | Except.ok _ => true
  | Except.error _ => false


/-!
Auxiliary lemmas about object field update.  Writing a key into an object
leaves the value, and the presence, of every other key unchanged, and the
written key reads back as the written value.
-/

theorem key_update_fst (k : String) (v : JSValue) (q : String × JSValue) :
    (if q.1 == k then (k, v) else q).1 = q.1 := by
  by_cases h : q.1 == k
  · simp only [h, if_true]
    exact (eq_of_beq h).symm
  · simp [h]

theorem hasKey_map_update (f : JSObject) (k k' : String) (v : JSValue) :
    hasKey (f.map (fun p => if p.1 == k then (k, v) else p)) k' = hasKey f k' := by
  simp only [hasKey, List.any_map]
  congr 1
  funext q
  by_cases hq : q.1 = k
  · simp [Function.comp, hq]
  · simp [Function.comp, hq]

theorem find?_key_map_update (f : JSObject) (k k' : String) (v : JSValue) :
    (f.map (fun p => if p.1 == k then (k, v) else p)).find? (fun p => p.1 == k')
      = (f.find? (fun p => p.1 == k')).map (fun p => if p.1 == k then (k, v) else p) := by
  rw [List.find?_map]
  have hpred : ((fun (p : String × JSValue) => p.1 == k') ∘
      (fun p => if p.1 == k then (k, v) else p)) = fun (p : String × JSValue) => p.1 == k' := by
    funext q
    by_cases hq : q.1 = k
    · simp [Function.comp, hq]
    · simp [Function.comp, hq]
  rw [hpred]

theorem getField_setField_self (f : JSObject) (k : String) (v : JSValue) :
    getField (setField f k v) k = v := by
  unfold setField
  cases h : hasKey f k with
  | true =>
    rw [if_pos rfl]
    unfold getField
    rw [find?_key_map_update]
    cases hf : f.find? (fun p => p.1 == k) with
    | none =>
      rw [List.find?_eq_none] at hf
      have h' : ∃ q ∈ f, (q.1 == k) = true := by
        simpa [hasKey, List.any_eq_true] using h
      obtain ⟨q, hq, hqk⟩ := h'
      exact absurd hqk (hf q hq)
    | some q =>
      have hqk : (q.1 == k) = true := by simpa using List.find?_some hf
      have hq1 : q.1 = k := eq_of_beq hqk
      simp [hf, hq1]
  | false =>
    rw [if_neg (by simp)]
    unfold getField
    rw [List.find?_append]
    have hnone : f.find? (fun p => p.1 == k) = none := by
      rw [List.find?_eq_none]
      intro x hx
      have h' : ∀ q ∈ f, ¬ ((q.1 == k) = true) := by
        simpa [hasKey] using h
      exact h' x hx
    simp [hnone, List.find?]

theorem getField_setField_ne (f : JSObject) (k k' : String) (v : JSValue)
    (h : k' ≠ k) :
    getField (setField f k v) k' = getField f k' := by
  unfold setField
  cases hk : hasKey f k with
  | true =>
    rw [if_pos rfl]
    unfold getField
    rw [find?_key_map_update]
    cases hf : f.find? (fun p => p.1 == k') with
    | none => simp
    | some q =>
      have hqk' : (q.1 == k') = true := by simpa using List.find?_some hf
      have hq1 : q.1 = k' := eq_of_beq hqk'
      have hne : ¬ (q.1 = k) := by
        rw [hq1]
        exact h
      simp [hf, hne]
  | false =>
    rw [if_neg (by simp)]
    unfold getField
    rw [List.find?_append]
    have hsingle : List.find? (fun (p : String × JSValue) => p.1 == k') [(k, v)] = none := by
      have hkk : (k == k') = false := beq_eq_false_iff_ne.mpr (Ne.symm h)
      simp [List.find?, hkk]
    simp [hsingle]

theorem hasKey_setField_ne (f : JSObject) (k k' : String) (v : JSValue)
    (h : k' ≠ k) :
    hasKey (setField f k v) k' = hasKey f k' := by
  unfold setField
  cases hk : hasKey f k with
  | true =>
    rw [if_pos rfl]
    exact hasKey_map_update f k k' v
  | false =>
    rw [if_neg (by simp)]
    have hkk : (k == k') = false := beq_eq_false_iff_ne.mpr (Ne.symm h)
    simp [hasKey, List.any_append, hkk]

theorem returnedTrue_some (b : Bool) : returnedTrue (some b) = b := by
  cases b <;> rfl

theorem tag_tests_le_one (t : String) :
    (t == "pending").toNat + (t == "fulfilled").toNat + (t == "rejected").toNat ≤ 1 := by
  by_cases h1 : t = "pending"
  · subst h1; decide
  · by_cases h2 : t = "fulfilled"
    · subst h2; decide
    · have e1 : (t == "pending") = false := beq_eq_false_iff_ne.mpr h1
      have e2 : (t == "fulfilled") = false := beq_eq_false_iff_ne.mpr h2
      cases h3 : (t == "rejected") <;> simp [e1, e2, h3]

theorem strictEq_tests_le_one (st : JSValue) :
    (strictEqStr st "pending").toNat + (strictEqStr st "fulfilled").toNat
      + (strictEqStr st "rejected").toNat ≤ 1 := by
  cases st with
  | str t => simpa [strictEqStr] using tag_tests_le_one t
  | undef => decide
  | null => decide
  | bool b => simp [strictEqStr]
  | num n => simp [strictEqStr]
  | obj o => simp [strictEqStr]

/-- Claim C1: for every source object whose state is one of the three
recognized tags and for any newData, fork returns the source object with
only the data field replaced; the state tag, the isLoading flag and, when
present on the source, the error field of the result are identical to the
ones of the source (the error being the very same instance, which the
embedding renders as equality of the embedded value). -/
theorem C1_fork_replaces_only_data (source : JSObject) (newData : JSValue)
    (h : recognizedTag (getField source "state") = true) :
    fork (JSValue.obj source) newData
        = Except.ok (JSValue.obj (setField source "data" newData)) ∧
    getField (setField source "data" newData) "data" = newData ∧
    getField (setField source "data" newData) "state" = getField source "state" ∧
    getField (setField source "data" newData) "isLoading" = getField source "isLoading" ∧
    hasKey (setField source "data" newData) "error" = hasKey source "error" ∧
    (hasKey source "error" = true →
      getField (setField source "data" newData) "error" = getField source "error") := by
  refine ⟨?_, getField_setField_self source "data" newData,
    getField_setField_ne source "data" "state" newData (by decide),
    getField_setField_ne source "data" "isLoading" newData (by decide),
    hasKey_setField_ne source "data" "error" newData (by decide),
    fun _ => getField_setField_ne source "data" "error" newData (by decide)⟩
  simp [fork, jsGetProp, spreadFields, h]

/-- Concrete instantiation of claim C1 at a rejected source carrying data,
an error and a raised isLoading flag. -/
theorem C1_fork_replaces_only_data_witness :
    fork (JSValue.obj [("data", JSValue.num 1), ("state", JSValue.str "rejected"),
        ("error", JSValue.str "boom"), ("isLoading", JSValue.bool true)]) (JSValue.str "forked")
      = Except.ok (JSValue.obj [("data", JSValue.str "forked"), ("state", JSValue.str "rejected"),
        ("error", JSValue.str "boom"), ("isLoading", JSValue.bool true)]) ∧
    getField (setField [("data", JSValue.num 1), ("state", JSValue.str "rejected"),
        ("error", JSValue.str "boom"), ("isLoading", JSValue.bool true)] "data"
        (JSValue.str "forked")) "error" = JSValue.str "boom" := by
  have h := C1_fork_replaces_only_data
    [("data", JSValue.num 1), ("state", JSValue.str "rejected"),
     ("error", JSValue.str "boom"), ("isLoading", JSValue.bool true)] (JSValue.str "forked") rfl
  exact ⟨h.1, h.2.2.2.2.2 rfl⟩

/-- Claim C2 counterexample: the claim makes fork the only operation in
the library that can fail at runtime, but isRejected applied to undefined
also fails: the property access in its body throws a TypeError, rendered
in the embedding by the result none. -/
theorem C2_isRejected_undefined_throws : isRejected JSValue.undef = none := rfl

/-- Claim C2 (amended): fork applied to an object raises exactly when the
state of the object is not one of the three recognized tags; the concrete
object with state "unknown" raises the designated error with no value
produced; and on inputs permitted by the signatures, no other operation
fails: isPending and isRejected, whose signatures require an object,
return a value on every object (the remaining operations are total
functions of the embedding by construction). -/
theorem C2_fork_sole_failure_point :
    (∀ (source : JSObject) (x : JSValue),
      forkSucceeds (JSValue.obj source) x = recognizedTag (getField source "state")) ∧
    fork (JSValue.obj [("state", JSValue.str "unknown"), ("isLoading", JSValue.bool false)])
        (JSValue.num 1)
      = Except.error forkErrorMessage ∧
    (∀ o : JSObject, (isPending (JSValue.obj o)).isSome = true ∧
      (isRejected (JSValue.obj o)).isSome = true) := by
  refine ⟨?_, rfl, fun o => ⟨rfl, rfl⟩⟩
  intro source x
  cases h : recognizedTag (getField source "state") with
  | true => simp [forkSucceeds, fork, jsGetProp, h]
  | false => simp [forkSucceeds, fork, jsGetProp, h]

/-- Claim C3, evaluated at the failing input: a fulfilled object whose
data payload is null.  The claim, the narrowing type of the source (which
declares the payload NonNullable) and the specification all require false
here, but the runtime check only excludes undefined: the typeof of null is
"object", so the function returns true. -/
theorem C3_fulfilled_null_payload_eval :
    isFulfilledAndDefined (JSValue.obj
      [("state", JSValue.str "fulfilled"), ("data", JSValue.null),
       ("isLoading", JSValue.bool false)]) = true := rfl

/-- Claim C4 counterexample: the claim asserts that no state predicate
raises under any input including an absent argument, but isPending applied
to undefined throws a TypeError (rendered by the result none), since its
body reads the state property without optional chaining. -/
theorem C4_isPending_undefined_throws : isPending JSValue.undef = none := rfl

/-- Claim C4 (amended): the constructors are total on every input;
isFulfilled and isFulfilledAndDefined never raise, returning false on an
absent/undefined argument; isPending and isRejected return a value on
every argument their signatures allow (any object) and throw exactly on
the nullish arguments their signatures exclude. -/
theorem C4_totality_on_allowed_inputs :
    (∀ d l : JSValue, ∃ fields, create d l = JSValue.obj fields) ∧
    (∀ d : JSValue, ∃ fields, resolve d = JSValue.obj fields) ∧
    (∀ d e : JSValue, ∃ fields, reject d e = JSValue.obj fields) ∧
    isFulfilled JSValue.undef = false ∧
    isFulfilledAndDefined JSValue.undef = false ∧
    (∀ o : JSObject, (isPending (JSValue.obj o)).isSome = true ∧
      (isRejected (JSValue.obj o)).isSome = true) ∧
    (∀ v : JSValue, isPending v = none ↔ (v = JSValue.undef ∨ v = JSValue.null)) ∧
    (∀ v : JSValue, isRejected v = none ↔ (v = JSValue.undef ∨ v = JSValue.null)) := by
  refine ⟨fun d l => ⟨_, rfl⟩, fun d => ⟨_, rfl⟩, fun d e => ⟨_, rfl⟩, rfl, rfl,
    fun o => ⟨rfl, rfl⟩, ?_, ?_⟩
  · intro v
    cases v <;> simp [isPending, jsGetProp]
  · intro v
    cases v <;> simp [isRejected, jsGetProp]

/-- Claim C5: the recognizer is true exactly when both the state key and
the isLoading key are present; it is insensitive to the values of all
fields (so the state value need not be a recognized tag), and appending
extra keys to a structurally matching object never makes it false. -/
theorem C5_is_shallow_recognizer (x : JSObject) :
    (is x = true ↔ ((∃ p ∈ x, p.1 = "state") ∧ (∃ p ∈ x, p.1 = "isLoading"))) ∧
    (∀ f : JSValue → JSValue, is (x.map (fun p => (p.1, f p.2))) = is x) ∧
    (∀ extra : JSObject, is x = true → is (x ++ extra) = true) := by
  refine ⟨?_, ?_, ?_⟩
  · simp [is, hasKey, List.any_eq_true]
  · intro f
    simp [is, hasKey, List.any_map, Function.comp_def]
  · intro extra h
    simp only [is, hasKey, List.any_append, Bool.and_eq_true, Bool.or_eq_true] at h ⊢
    exact ⟨Or.inl h.1, Or.inl h.2⟩

/-- Concrete instantiation of claim C5: an object whose state value is not
a recognized tag, extended with an extra key, is still recognized. -/
theorem C5_is_shallow_recognizer_witness :
    is ([("state", JSValue.num 0), ("isLoading", JSValue.bool false)]
        ++ [("extra", JSValue.num 1)]) = true :=
  (C5_is_shallow_recognizer [("state", JSValue.num 0), ("isLoading", JSValue.bool false)]).2.2
    [("extra", JSValue.num 1)] rfl

/-- Claim C6: create with the isLoading argument omitted produces the
pending object carrying the given data with isLoading defaulted to false;
isPending holds on the result while isFulfilled and isRejected do not. -/
theorem C6_create_builds_pending (d : JSValue) :
    create d JSValue.undef = JSValue.obj
      [("data", d), ("state", JSValue.str "pending"), ("isLoading", JSValue.bool false)] ∧
    jsOptProp (create d JSValue.undef) "state" = JSValue.str "pending" ∧
    jsOptProp (create d JSValue.undef) "data" = d ∧
    isPending (create d JSValue.undef) = some true ∧
    isFulfilled (create d JSValue.undef) = false ∧
    isRejected (create d JSValue.undef) = some false :=
  ⟨rfl, rfl, rfl, rfl, rfl, rfl⟩

/-- Claim C7: resolve produces the fulfilled object with isLoading false
and the given data, and isFulfilled holds on the result. -/
theorem C7_resolve_builds_fulfilled (d : JSValue) :
    resolve d = JSValue.obj
      [("data", d), ("state", JSValue.str "fulfilled"), ("isLoading", JSValue.bool false)] ∧
    jsOptProp (resolve d) "state" = JSValue.str "fulfilled" ∧
    jsOptProp (resolve d) "isLoading" = JSValue.bool false ∧
    jsOptProp (resolve d) "data" = d ∧
    isFulfilled (resolve d) = true :=
  ⟨rfl, rfl, rfl, rfl, rfl⟩

/-- Claim C8: reject produces the rejected object with the given error and
data and with isLoading false, and isRejected holds on the result. -/
theorem C8_reject_builds_rejected (d e : JSValue) :
    reject d e = JSValue.obj
      [("data", d), ("state", JSValue.str "rejected"), ("error", e),
       ("isLoading", JSValue.bool false)] ∧
    jsOptProp (reject d e) "state" = JSValue.str "rejected" ∧
    jsOptProp (reject d e) "error" = e ∧
    jsOptProp (reject d e) "data" = d ∧
    jsOptProp (reject d e) "isLoading" = JSValue.bool false ∧
    isRejected (reject d e) = some true :=
  ⟨rfl, rfl, rfl, rfl, rfl, rfl⟩

/-- Claim C9: on every value, at most one of the three state predicates
returns true (counted by stateTrueCount, where a thrown call counts as not
returning true), and on every value produced by create, resolve or reject,
exactly one of them returns true. -/
theorem C9_predicates_mutually_exclusive :
    (∀ v : JSValue, stateTrueCount v ≤ 1) ∧
    (∀ d l : JSValue, stateTrueCount (create d l) = 1) ∧
    (∀ d : JSValue, stateTrueCount (resolve d) = 1) ∧
    (∀ d e : JSValue, stateTrueCount (reject d e) = 1) := by
  refine ⟨?_, fun d l => rfl, fun d => rfl, fun d e => rfl⟩
  intro v
  cases v with
  | undef => decide
  | null => decide
  | bool b => cases b <;> decide
  | num n =>
    simp [stateTrueCount, isPending, isFulfilled, isRejected, jsGetProp, jsOptProp,
      returnedTrue_some, strictEqStr]
  | str s =>
    simp [stateTrueCount, isPending, isFulfilled, isRejected, jsGetProp, jsOptProp,
      returnedTrue_some, strictEqStr]
  | obj fields =>
    simpa [stateTrueCount, isPending, isFulfilled, isRejected, jsGetProp, jsOptProp,
      returnedTrue_some] using strictEq_tests_le_one (getField fields "state")

/-- Claim C10: fork copies every field of a source object with a
recognized state tag, not only the four fields of the AsyncData shape: any
key other than data is present in the result exactly when it is present in
the source, with an unchanged value. -/
theorem C10_fork_copies_extra_keys (source : JSObject) (newData : JSValue)
    (h : recognizedTag (getField source "state") = true) :
    fork (JSValue.obj source) newData
        = Except.ok (JSValue.obj (setField source "data" newData)) ∧
    (∀ k : String, k ≠ "data" →
      hasKey (setField source "data" newData) k = hasKey source k ∧
      getField (setField source "data" newData) k = getField source k) := by
  refine ⟨?_, fun k hk => ⟨hasKey_setField_ne source "data" k newData hk,
    getField_setField_ne source "data" k newData hk⟩⟩
  simp [fork, jsGetProp, spreadFields, h]

/-- Concrete instantiation of claim C10 at a pending source object that
carries an extra key beyond the AsyncData shape. -/
theorem C10_fork_copies_extra_keys_witness :
    fork (JSValue.obj [("state", JSValue.str "pending"), ("isLoading", JSValue.bool false),
        ("extra", JSValue.num 7)]) (JSValue.num 2)
      = Except.ok (JSValue.obj [("state", JSValue.str "pending"),
        ("isLoading", JSValue.bool false), ("extra", JSValue.num 7),
        ("data", JSValue.num 2)]) ∧
    getField (setField [("state", JSValue.str "pending"), ("isLoading", JSValue.bool false),
        ("extra", JSValue.num 7)] "data" (JSValue.num 2)) "extra" = JSValue.num 7 := by
  have h := C10_fork_copies_extra_keys
    [("state", JSValue.str "pending"), ("isLoading", JSValue.bool false),
     ("extra", JSValue.num 7)] (JSValue.num 2) rfl
  exact ⟨h.1, (h.2 "extra" (by decide)).2⟩
